import Mathlib

/-!
Verification of the starlite DTO subsystem: a shallow embedding of the DTO
factory, the field-shaping utilities and the serialization plugins
(dataclass, pydantic, SQLAlchemy), together with theorems settling the
spec's claims about them.

Embedding conventions:
* Python type expressions are the inductive `Ty`; the check
  `"ForwardRef" in repr(t)` of the source is `Ty.containsForwardRef`
  (a type expression's repr mentions ForwardRef exactly when a
  `forwardRef` node occurs in it).
* Python dicts are association lists `Dict α` with insertion-order
  semantics: assignment to an existing key replaces the value in place,
  assignment to a fresh key appends (`dinsert`), and `dict.pop` is `dpop`.
* JSON-representable runtime values are `Value` (floats are not needed by
  any claim's value-level statement).
-/

set_option autoImplicit false

namespace Starlite

/-- Python type expressions as relevant to the DTO subsystem: primitives,
forward references, list types and named (class) types. -/
inductive Ty where
  | int
  | float
  | str
  | boolTy
  | forwardRef (name : String)
  | listTy (t : Ty)
  | named (name : String)
  deriving DecidableEq

/-- Does the repr of the type expression mention ForwardRef?  This embeds
the source's check `"ForwardRef" not in repr(outer_type)`. -/
def Ty.containsForwardRef : Ty → Bool
  | .forwardRef _ => true
  | .listTy t => t.containsForwardRef
  | _ => false

/-- The pydantic field shapes the source distinguishes: `SHAPE_SINGLETON`
against the collection shapes. -/
inductive Shape where
  | singleton
  | listShape
  | setShape
  deriving DecidableEq

/-- JSON-representable runtime values (floats do not occur at value level
in any claim, so they are not modelled). -/
inductive Value where
  | nullV
  | boolV (b : Bool)
  | intV (n : Int)
  | strV (s : String)
  | listV (xs : List Value)
  | objV (fields : List (String × Value))

/-- The part of `pydantic.fields.FieldInfo` the DTO code carries around:
the declared default, when there is one. -/
structure FieldInfo where
  default : Option Value

/-- The part of `pydantic.fields.ModelField` the DTO code reads:
`outer_type_`, `type_` (the inner type), `shape` and `field_info`. -/
structure ModelField where
  outer_type_ : Ty
  type_ : Ty
  shape : Shape
  field_info : FieldInfo

/-- Python dicts with string keys, as ordered association lists. -/
abbrev Dict (α : Type) := List (String × α)

/-- Dictionary lookup: `d[k]` / `d.get(k)`. -/
def dlookup {α : Type} (k : String) : Dict α → Option α
  | [] => none
  | (k', v) :: rest => if k' = k then some v else dlookup k rest

/-- Dictionary assignment `d[k] = v`: replace in place when the key exists,
append otherwise (CPython insertion-order semantics). -/
def dinsert {α : Type} (k : String) (v : α) : Dict α → Dict α
  | [] => [(k, v)]
  | (k', v') :: rest => if k' = k then (k, v) :: rest else (k', v') :: dinsert k v rest

/-- Dictionary `d.pop(k)` without a default: the value and the remaining
dict, or `none` (a `KeyError`) when the key is absent. -/
def dpop {α : Type} (k : String) : Dict α → Option (α × Dict α)
  | [] => none
  | (k', v') :: rest =>
      if k' = k then some (v', rest)
      else
        match dpop k rest with
        | none => none
        | some (v, l) => some (v, (k', v') :: l)

/-- Membership test `k in d`. -/
def dcontains {α : Type} (k : String) (d : Dict α) : Bool :=
  (dlookup k d).isSome

/-- Embeds `starlite.dto.utils.get_field_type` (and its twin in
`starlite/dto.py`): return the outer type unless its repr mentions
ForwardRef; in that case fall back to the inner type for singleton-shaped
fields and to a list of the inner type otherwise. -/
def get_field_type (model_field : ModelField) : Ty :=
  if model_field.outer_type_.containsForwardRef = false then
    model_field.outer_type_
  else if model_field.shape = Shape.singleton then
    model_field.type_
  else
    Ty.listTy model_field.type_

/-- An entry of a DTO `field_mapping`: either a plain rename or a
rename-and-retype tuple. -/
inductive MappingEntry where
  | rename (name : String)
  | renameRetype (name : String) (ty : Ty)
  deriving DecidableEq

/-- The transfer-side name an entry maps to (`value[0] if not isinstance(value, str) else value`). -/
def MappingEntry.newName : MappingEntry → String
  | .rename n => n
  | .renameRetype n _ => n

/-- Embeds `starlite.dto.utils.remap_field`.  The source indexes
`field_mapping[field_name]` only after the caller has checked membership;
the absent case is therefore unreachable at every call site and modelled
as the identity. -/
def remap_field (field_mapping : Dict MappingEntry) (field_name : String) (field_type : Ty) :
    String × Ty :=
  match dlookup field_name field_mapping with
  | some (MappingEntry.rename n) => (n, field_type)
  | some (MappingEntry.renameRetype n t) => (n, t)
  | none => (field_name, field_type)

/-- One step of the field-shaping loop shared by
`create_field_definitions` and the pydantic plugin: skip excluded names,
derive the type, remap when mapped, and assign into the accumulator. -/
def shape_field_step (exclude : List String) (field_mapping : Dict MappingEntry)
    (ret : Dict (Ty × FieldInfo)) (p : String × ModelField) : Dict (Ty × FieldInfo) :=
  if p.1 ∈ exclude then ret
  else
    let field_type := get_field_type p.2
    let q :=
      if dcontains p.1 field_mapping then remap_field field_mapping p.1 field_type
      else (p.1, field_type)
    dinsert q.1 (q.2, p.2.field_info) ret

/-- Embeds `starlite.dto.utils.create_field_definitions`: fold the shaping
loop over the source fields starting from an empty dict. -/
def create_field_definitions (exclude : List String) (field_mapping : Dict MappingEntry)
    (fields : Dict ModelField) : Dict (Ty × FieldInfo) :=
  List.foldl (shape_field_step exclude field_mapping) [] fields

/-- Resolution of forward references against a namespace, as performed by
`update_forward_refs(localns=...)`: a `forwardRef` node is replaced by the
type registered under its name, when there is one. -/
def Ty.resolveRefs (localns : Dict Ty) : Ty → Ty
  | .forwardRef n =>
      match dlookup n localns with
      | some t => t
      | none => .forwardRef n
  | .listTy t => .listTy (t.resolveRefs localns)
  | t => t

/-- Apply forward-reference resolution to a field's outer and inner type. -/
def ModelField.resolveRefs (localns : Dict Ty) (mf : ModelField) : ModelField :=
  { mf with
    outer_type_ := mf.outer_type_.resolveRefs localns
    type_ := mf.type_.resolveRefs localns }

/-- A pydantic model class: its name and its ordered `__fields__`. -/
structure PydanticModelClass where
  name : String
  fields_ : Dict ModelField

/-- A synthesized data container class, as produced by `create_model`: the
class name and the ordered field definitions (type and field info). -/
structure ContainerClass where
  name : String
  fields_ : Dict (Ty × FieldInfo)

/-- Embeds `model_class.update_forward_refs(localns=localns)`. -/
def PydanticModelClass.update_forward_refs (localns : Dict Ty) (mc : PydanticModelClass) :
    PydanticModelClass :=
  ⟨mc.name, mc.fields_.map (fun p => (p.1, p.2.resolveRefs localns))⟩

/-- Embeds the return value of `PydanticPlugin.to_data_container_class`:
resolve forward refs, then run the exclude/remap shaping loop over the
model's fields, writing into the dict of additional `fields`, and hand the
result to `create_model` (which here just packages name and field
definitions).  The source additionally mutates the caller's `fields` dict
in place when that dict is non-empty (`fields = fields or \x7b\x7d` keeps
the same object); that side effect is modelled separately by
`pydantic_container_fields_effect` and threaded through the heap in
`class_getitem`. -/
def pydantic_to_data_container_class (model_class : PydanticModelClass)
    (exclude : List String) (field_mappings : Dict MappingEntry)
    (fields : Dict (Ty × FieldInfo)) (localns : Dict Ty) : ContainerClass :=
  let model_class := model_class.update_forward_refs localns
  ContainerClass.mk model_class.name
    (List.foldl (shape_field_step exclude field_mappings) fields model_class.fields_)

/-- A dataclass model, represented through the pydantic model that
`pydantic.dataclasses.dataclass(model_class).__pydantic_model__` derives
from it (same field names, types, defaults, in declaration order). -/
structure DataclassModelClass where
  name : String
  fields_ : Dict ModelField

/-- Embeds `DataclassPlugin.to_data_container_class`: the body only
converts the dataclass to its derived pydantic model and resolves forward
references; the `exclude`, `field_mappings` and `fields` arguments are
accepted but never read. -/
def dataclass_to_data_container_class (model_class : DataclassModelClass)
    (_exclude : List String) (_field_mappings : Dict MappingEntry)
    (_fields : Dict (Ty × FieldInfo)) (localns : Dict Ty) : ContainerClass :=
  let pydantic_model := PydanticModelClass.mk model_class.name model_class.fields_
  let pydantic_model := pydantic_model.update_forward_refs localns
  ContainerClass.mk pydantic_model.name
    (pydantic_model.fields_.map (fun p => (p.1, (p.2.outer_type_, p.2.field_info))))

/-- SQLAlchemy column types in scope for the embedding (the exhaustive
per-dialect mapping table is out of the spec's scope; these witnesses are
enough for every claim about the adapter's shaping loop). -/
inductive SQLAType where
  | integerSA
  | varcharSA
  | floatSA
  | booleanSA
  deriving DecidableEq

/-- The pydantic equivalent of a SQLAlchemy column type
(`SQLAlchemyPlugin.get_pydantic_type`, restricted to the embedded types). -/
def get_pydantic_type : SQLAType → Ty
  | .integerSA => Ty.int
  | .varcharSA => Ty.str
  | .floatSA => Ty.float
  | .booleanSA => Ty.boolTy

/-- A SQLAlchemy column as the plugin reads it: type, nullability and the
scalar default argument, present only when the provider map knows the
argument's type (the source's
`column.default and type(column.default.arg) in ModelFactory.get_provider_map()`). -/
structure Column where
  type : SQLAType
  nullable : Bool
  default : Option Value

/-- A declarative SQLAlchemy model: qualified name and mapped columns. -/
structure SQLAModelClass where
  name : String
  columns : Dict Column

/-- The field definition the SQLAlchemy plugin derives for one column:
its default when the provider map knows it, required when not nullable,
and otherwise an explicit None default. -/
def sqlalchemy_field_def (c : Column) : Ty × FieldInfo :=
  match c.default with
  | some v => (get_pydantic_type c.type, ⟨some v⟩)
  | none =>
      if c.nullable = false then (get_pydantic_type c.type, ⟨none⟩)
      else (get_pydantic_type c.type, ⟨some Value.nullV⟩)

/-- Remapping at the level of a whole (type, default) field definition, as
the SQLAlchemy plugin calls `remap_field`: a tuple mapping entry replaces
the entire definition with the bare new type (the derived default is
dropped), a string entry only renames. -/
def remap_field_def (field_mappings : Dict MappingEntry) (field_name : String)
    (field_type : Ty × FieldInfo) : String × (Ty × FieldInfo) :=
  match dlookup field_name field_mappings with
  | some (MappingEntry.rename n) => (n, field_type)
  | some (MappingEntry.renameRetype n t) => (n, (t, ⟨none⟩))
  | none => (field_name, field_type)

/-- Embeds `SQLAlchemyPlugin.to_data_container_class` with its
`_model_namespace_map` cache passed as explicit state: return the cached
container when the model name is known, otherwise run the shaping loop
over the columns, seeded with the additional `fields`, build the model and
cache it under the model name. -/
def sqlalchemy_to_data_container_class (namespace_map : Dict ContainerClass)
    (model_class : SQLAModelClass) (exclude : List String)
    (field_mappings : Dict MappingEntry) (fields : Dict (Ty × FieldInfo)) :
    ContainerClass × Dict ContainerClass :=
  let model_name := model_class.name
  match dlookup model_name namespace_map with
  | some m => (m, namespace_map)
  | none =>
      let built := ContainerClass.mk model_name
        (List.foldl
          (fun acc p =>
            if p.1 ∈ exclude then acc
            else
              let fd := sqlalchemy_field_def p.2
              let q :=
                if dcontains p.1 field_mappings then remap_field_def field_mappings p.1 fd
                else (p.1, fd)
              dinsert q.1 q.2 acc)
          fields model_class.columns)
      (built, dinsert model_name built namespace_map)

/-- First-defined option: the left operand when present, the right one
otherwise (used to state lookup properties of the shaping loops). -/
def ofirst {α : Type} (a b : Option α) : Option α :=
  match a with
  | some v => some v
  | none => b

/-- Lookup of the last binding of a key in an association list with
possible duplicate keys (later assignments win). -/
def dlookupLast {α : Type} (k : String) (l : List (String × α)) : Option α :=
  dlookup k l.reverse

/-- The (name, definition) pair one iteration of the shaping loop would
assign, or none when the field is excluded. -/
def shaped_pair (exclude : List String) (field_mapping : Dict MappingEntry)
    (p : String × ModelField) : Option (String × (Ty × FieldInfo)) :=
  if p.1 ∈ exclude then none
  else
    let field_type := get_field_type p.2
    let q :=
      if dcontains p.1 field_mapping then remap_field field_mapping p.1 field_type
      else (p.1, field_type)
    some (q.1, (q.2, p.2.field_info))

/-- The error taxonomy the embedded operations surface. -/
inductive PyError where
  | configurationError (msg : String)
  | validationError
  | keyError
  | typeError
  deriving DecidableEq

/-- Validation of a value against a declared type, the strict fragment of
pydantic v1 validation: a value of exactly the declared shape validates to
itself, lists validate element-wise.  Pydantic additionally coerces (for
example numeric strings); the claims only quantify over already
type-conformant data, for which validation is the identity, so only that
fragment is embedded.  Float-typed, named-class-typed and unresolved
forward-reference fields accept no value of the embedded value domain. -/
def validate : Ty → Value → Option Value
  | Ty.int, Value.intV n => some (Value.intV n)
  | Ty.str, Value.strV s => some (Value.strV s)
  | Ty.boolTy, Value.boolV b => some (Value.boolV b)
  | Ty.listTy t, Value.listV xs => (xs.mapM (validate t)).map Value.listV
  | _, _ => none

/-- Parse a dict of raw values against container field definitions, the
way pydantic builds a model instance: look each declared field up in the
data (extra keys are ignored), validate it, fall back to the declared
default when absent, fail when a required field is missing or a value does
not validate.  The output is in declared field order. -/
def parse_fields : Dict (Ty × FieldInfo) → Dict Value → Option (Dict Value)
  | [], _ => some []
  | (n, (t, info)) :: rest, data =>
      let v? :=
        match dlookup n data with
        | some v => validate t v
        | none => info.default
      match v?, parse_fields rest data with
      | some v, some vs => some ((n, v) :: vs)
      | _, _ => none

/-- Same parsing discipline against a pydantic model's own fields
(`model_class.parse_obj` / `model_class(**kwargs)`), validating each value
against the field's declared outer type. -/
def parse_model_fields : Dict ModelField → Dict Value → Option (Dict Value)
  | [], _ => some []
  | (n, mf) :: rest, data =>
      let v? :=
        match dlookup n data with
        | some v => validate mf.outer_type_ v
        | none => mf.field_info.default
      match v?, parse_model_fields rest data with
      | some v, some vs => some ((n, v) :: vs)
      | _, _ => none

/-- An instance of a synthesized container class: the class and the
validated field values in field order. -/
structure TransferInstance where
  cls : ContainerClass
  values : Dict Value

/-- Embeds `FromPydantic.container_instance_to_dict`
(`container_instance.dict()`). -/
def container_instance_to_dict (ti : TransferInstance) : Dict Value :=
  ti.values

/-- Embeds `FromPydantic.parse_container_type_from_raw`
(`decode_json(buffer, container_type)`): the buffer must decode to a JSON
object, which is validated against the container's fields.  The raw bytes
are modelled by the JSON document they decode to. -/
def parse_container_type_from_raw (container_type : ContainerClass) (buffer : Value) :
    Option TransferInstance :=
  match buffer with
  | Value.objV data => (parse_fields container_type.fields_ data).map (TransferInstance.mk container_type)
  | _ => none

/-- Embeds `FromPydantic.parse_container_type_array_from_raw`
(`decode_json(buffer, list[container_type])`): the buffer must decode to a
JSON array, each element of which is validated as one container
instance. -/
def parse_container_type_array_from_raw (container_type : ContainerClass) (buffer : Value) :
    Option (List TransferInstance) :=
  match buffer with
  | Value.listV xs => xs.mapM (parse_container_type_from_raw container_type)
  | _ => none

/-- An instance of a pydantic model: the class and its field values. -/
structure PydanticModelInstance where
  cls : PydanticModelClass
  values : Dict Value

/-- Embeds `PydanticPlugin.from_dict` (`model_class.parse_obj(kwargs)`). -/
def pydantic_from_dict (model_class : PydanticModelClass) (values : Dict Value) :
    Option PydanticModelInstance :=
  (parse_model_fields model_class.fields_ values).map (PydanticModelInstance.mk model_class)

/-- An instance of a dataclass model: the class and its field values. -/
structure DataclassInstance where
  cls : DataclassModelClass
  values : Dict Value

/-- Bind dataclass constructor arguments to fields in declaration order,
falling back to a field's default; a missing required field is a
TypeError.  Dataclass construction performs no type validation. -/
def dataclass_build_fields : Dict ModelField → Dict Value → Option (Dict Value)
  | [], _ => some []
  | (n, mf) :: rest, data =>
      let v? :=
        match dlookup n data with
        | some v => some v
        | none => mf.field_info.default
      match v?, dataclass_build_fields rest data with
      | some v, some vs => some ((n, v) :: vs)
      | _, _ => none

/-- Embeds `DataclassPlugin.from_dict` (`model_class(**kwargs)`): every
keyword must name a declared field (else TypeError), fields are filled
from the keywords or their defaults. -/
def dataclass_from_dict (model_class : DataclassModelClass) (values : Dict Value) :
    Option DataclassInstance :=
  if (values.map Prod.fst).all (fun k => dcontains k model_class.fields_) then
    (dataclass_build_fields model_class.fields_ values).map (DataclassInstance.mk model_class)
  else none

/-- Embeds `starlite.dto.config.Config` (also the `DTOConfig` the factory
reads): exclusion set, field mapping and additional fields, all empty by
default. -/
structure DTOConfig where
  exclude : List String
  field_mapping : Dict MappingEntry
  fields : Dict (Ty × FieldInfo)

/-- The all-empty default configuration (`Config()`). -/
def empty_config : DTOConfig := ⟨[], [], []⟩

/-- The transfer payload a `dto.factory.Factory` instance holds.  The
constructor takes `Any`, and `array_from_buffer` does pass a whole list
where `from_buffer` passes a single container instance, so both shapes are
representable. -/
inductive TransferPayload where
  | single (ti : TransferInstance)
  | array (tis : List TransferInstance)

/-- An instance of the specialized `dto.factory.Factory`: it owns exactly
its transfer payload. -/
structure FactoryInstance where
  transfer_instance : TransferPayload

/-- The class-level state of a specialized `dto.factory.Factory`,
parameterized by the model-instance type of its plugin: the plugin's
instance-level operations, the derived transfer type, the configuration
and the reverse field mappings. -/
structure FactorySpec (Model : Type) where
  plugin_to_dict : Model → Dict Value
  plugin_from_dict : Dict Value → Option Model
  transfer_type : ContainerClass
  config : DTOConfig
  reverse_field_mappings : Dict String

/-- Embeds `encode_json` on a dict of already JSON-representable values. -/
def encode_json (d : Dict Value) : Value :=
  Value.objV d

/-- Embeds `Factory.from_buffer`: parse the raw buffer into one transfer
instance via the plugin and wrap it; a parse failure is a
ValidationError. -/
def from_buffer {Model : Type} (F : FactorySpec Model) (buffer : Value) :
    Except PyError FactoryInstance :=
  match parse_container_type_from_raw F.transfer_type buffer with
  | some ti => Except.ok ⟨TransferPayload.single ti⟩
  | none => Except.error PyError.validationError

/-- Embeds `Factory.from_model`: encode the plugin's dict of the model
instance to JSON and run it through `from_buffer`. -/
def from_model {Model : Type} (F : FactorySpec Model) (model_instance : Model) :
    Except PyError FactoryInstance :=
  from_buffer F (encode_json (F.plugin_to_dict model_instance))

/-- Embeds `Factory.array_from_buffer` exactly as written: the plugin
parses the buffer into a list of transfer instances, and the factory
wraps that whole list in a single `Factory` instance inside a one-element
list. -/
def array_from_buffer {Model : Type} (F : FactorySpec Model) (buffer : Value) :
    Except PyError (List FactoryInstance) :=
  match parse_container_type_array_from_raw F.transfer_type buffer with
  | some tis => Except.ok [⟨TransferPayload.array tis⟩]
  | none => Except.error PyError.validationError

/-- The reverse-remapping loop of `Factory.to_model`:
`values[original_key] = values.pop(dto_key)` for each reverse mapping
entry, a missing transfer-side key being a KeyError. -/
def apply_reverse_mappings (reverse_field_mappings : Dict String) (values : Dict Value) :
    Option (Dict Value) :=
  List.foldl
    (fun acc p =>
      match acc with
      | none => none
      | some vs =>
          match dpop p.1 vs with
          | none => none
          | some (v, vs') => some (dinsert p.2 v vs'))
    (some values) reverse_field_mappings

/-- Embeds `Factory.to_model`: extract the transfer instance's values,
translate every transfer-side key back to its model-side key, and hand
the result to the plugin's `from_dict`.  When the instance holds a whole
array (as `array_from_buffer` builds), the extraction step fails at
runtime (a list has no `dict()`), surfaced as a TypeError. -/
def to_model {Model : Type} (F : FactorySpec Model) (inst : FactoryInstance) :
    Except PyError Model :=
  match inst.transfer_instance with
  | TransferPayload.array _ => Except.error PyError.typeError
  | TransferPayload.single ti =>
      match apply_reverse_mappings F.reverse_field_mappings (container_instance_to_dict ti) with
      | none => Except.error PyError.keyError
      | some values =>
          match F.plugin_from_dict values with
          | some m => Except.ok m
          | none => Except.error PyError.validationError

/-- The reverse field mappings `__class_getitem__` derives from a
configuration: the dict comprehension over `config.field_mapping` keyed by
the transfer-side name. -/
def derive_reverse_field_mappings (field_mapping : Dict MappingEntry) : Dict String :=
  List.foldl (fun acc p => dinsert p.2.newName p.1 acc) [] field_mapping

/-- The specialized factory class `Factory[Annotated[model, config]]`
produces for a pydantic model: the pydantic plugin's operations bound to
the model type, the derived transfer type and reverse mappings. -/
def pydantic_factory (model_class : PydanticModelClass) (config : DTOConfig)
    (localns : Dict Ty) : FactorySpec PydanticModelInstance :=
  { plugin_to_dict := fun m => m.values
    plugin_from_dict := fun values => pydantic_from_dict model_class values
    transfer_type :=
      pydantic_to_data_container_class model_class config.exclude config.field_mapping
        config.fields localns
    config := config
    reverse_field_mappings := derive_reverse_field_mappings config.field_mapping }

/-- The specialized factory class for a dataclass model, with the
dataclass plugin's operations (`asdict` and keyword construction). -/
def dataclass_factory (model_class : DataclassModelClass) (config : DTOConfig)
    (localns : Dict Ty) : FactorySpec DataclassInstance :=
  { plugin_to_dict := fun m => m.values
    plugin_from_dict := fun values => dataclass_from_dict model_class values
    transfer_type :=
      dataclass_to_data_container_class model_class config.exclude config.field_mapping
        config.fields localns
    config := config
    reverse_field_mappings := derive_reverse_field_mappings config.field_mapping }

/-- The class-level state of a specialized `starlite.dto.Factory` (the
`dto.py` revision of the factory, whose instances are themselves pydantic
models).  The plugin's `to_dict` is a single function together with the
flag `is_async_callable` reads; calling an async `to_dict` returns an
awaitable instead of running, which is what `isawaitable(result)`
observes. -/
structure LegacyFactory (Model : Type) where
  plugin_name : String
  plugin_to_dict_is_async : Bool
  plugin_to_dict : Model → Dict Value
  field_mapping : Dict String
  dto_fields : Dict ModelField

/-- Embeds `Factory._from_value_mapping` followed by `cls(**mapping)`: the
loop binds each `field_mapping` item as `(dto_key, original_key)` — so it
pops the mapped name and reassigns under the original name — then the
class constructor validates the result against the DTO's own fields.  A
pop of an absent key is a KeyError, failed validation a
ValidationError. -/
def legacy_from_value_mapping {Model : Type} (F : LegacyFactory Model)
    (mapping : Dict Value) : Except PyError (Dict Value) :=
  match
    List.foldl
      (fun acc p =>
        match acc with
        | Except.error e => Except.error e
        | Except.ok vs =>
            match dpop p.2 vs with
            | none => Except.error PyError.keyError
            | some (v, vs') => Except.ok (dinsert p.1 v vs'))
      (Except.ok mapping) F.field_mapping
  with
  | Except.error e => Except.error e
  | Except.ok vs =>
      match parse_model_fields F.dto_fields vs with
      | some out => Except.ok out
      | none => Except.error PyError.validationError

/-- Embeds `Factory.from_model_instance`: call the plugin's `to_dict`; if
the call produced an awaitable — which happens exactly when `to_dict` is
async — raise a ConfigurationError naming the async variant; otherwise
run the value mapping.  The exact source message additionally quotes the
method name. -/
def legacy_from_model_instance {Model : Type} (F : LegacyFactory Model)
    (model_instance : Model) : Except PyError (Dict Value) :=
  let result := F.plugin_to_dict model_instance
  if F.plugin_to_dict_is_async then
    Except.error (PyError.configurationError
      ("plugin " ++ F.plugin_name ++
        " to_dict method is async. Use DTO.from_model_instance_async instead"))
  else legacy_from_value_mapping F result

/-- Embeds `Factory.from_model_instance_async`: await the plugin's
`to_dict` when it is async and run the value mapping on the awaited
values; otherwise defer to the synchronous `from_model_instance`. -/
def legacy_from_model_instance_async {Model : Type} (F : LegacyFactory Model)
    (model_instance : Model) : Except PyError (Dict Value) :=
  if F.plugin_to_dict_is_async then
    legacy_from_value_mapping F (F.plugin_to_dict model_instance)
  else legacy_from_model_instance F model_instance

/-- Runtime values and type expressions as `get_plugin_for_value`
distinguishes them: model objects of some family, lists, tuples,
subscripted generics (for which `get_args` is non-empty) and None. -/
inductive PyVal where
  | objVal (family : String)
  | listVal (xs : List PyVal)
  | tupleVal (xs : List PyVal)
  | genericAlias (origin : String) (args : List PyVal)
  | noneVal

/-- Python truthiness of the embedded values: empty sequences and None are
falsy. -/
def PyVal.truthy : PyVal → Bool
  | .listVal xs => !xs.isEmpty
  | .tupleVal xs => !xs.isEmpty
  | .noneVal => false
  | _ => true

/-- Is the value a list or tuple (`isinstance(value, (list, tuple))`)? -/
def PyVal.isListOrTuple : PyVal → Bool
  | .listVal _ => true
  | .tupleVal _ => true
  | _ => false

/-- The first element of a sequence value (`value[0]`); only called on
truthy sequences, the fallback is unreachable. -/
def PyVal.firstElem : PyVal → PyVal
  | .listVal (x :: _) => x
  | .tupleVal (x :: _) => x
  | v => v

/-- Embeds `typing_extensions.get_args` on the embedded values. -/
def pyval_get_args : PyVal → List PyVal
  | .genericAlias _ args => args
  | _ => []

/-- A registered serialization adapter as the lookup sees it: an identity
and its `is_plugin_supported_type` predicate. -/
structure RegisteredPlugin where
  pid : Nat
  is_plugin_supported_type : PyVal → Bool

/-- Embeds `starlite.plugins.base.get_plugin_for_value`: when any plugins
are registered, unwrap a truthy list/tuple to its first element, then
unwrap a subscripted generic to its first type argument, and return the
first plugin in registration order whose support predicate accepts the
result; None when no plugin matches or none are registered. -/
def get_plugin_for_value (value : PyVal) (plugins : List RegisteredPlugin) :
    Option RegisteredPlugin :=
  match plugins with
  | [] => none
  | _ :: _ =>
      let value := if value.truthy && value.isListOrTuple then value.firstElem else value
      let value :=
        match pyval_get_args value with
        | a :: _ => a
        | [] => value
      plugins.find? (fun plugin => plugin.is_plugin_supported_type value)

/-- Modelled from the spec wording of the claim (for comparison with the
source behavior): one single level of unwrapping, either the first element
of a non-empty sequence or the first generic type argument. -/
def unwrap_one_level_spec (value : PyVal) : PyVal :=
  match value with
  | .listVal (x :: _) => x
  | .tupleVal (x :: _) => x
  | v =>
      match pyval_get_args v with
      | a :: _ => a
      | [] => v

/-- The unwrapping `get_plugin_for_value` actually performs: the sequence
unwrap followed by the generic-argument unwrap, both of which can apply in
succession. -/
def unwrap_value (value : PyVal) : PyVal :=
  let v1 := if value.truthy && value.isListOrTuple then value.firstElem else value
  match pyval_get_args v1 with
  | a :: _ => a
  | [] => v1

/-- The dict objects `_reverse_field_mappings` attributes point to, as an
explicit heap: a reference is an index into the store. -/
abbrev RfmStore := List (Dict String)

/-- The state of the caller's `fields` dict after
`PydanticPlugin.to_data_container_class` returns: `fields = fields or {}`
rebinds the name to a fresh dict when the passed dict is empty (falsy),
leaving the caller's dict untouched, but keeps the very same object when
it is non-empty, and the shaping loop then assigns every shaped source
field into that object in place — so the caller's dict ends up holding the
complete field-definition dict of the built container. -/
def pydantic_container_fields_effect (model_class : PydanticModelClass)
    (exclude : List String) (field_mappings : Dict MappingEntry)
    (fields : Dict (Ty × FieldInfo)) (localns : Dict Ty) : Dict (Ty × FieldInfo) :=
  if fields.isEmpty then fields
  else (pydantic_to_data_container_class model_class exclude field_mappings fields
    localns).fields_

/-- The heap of dict objects the factory's class attributes alias: the
`_reverse_field_mappings` dicts and the `fields` dicts owned by `Config`
objects.  A reference is an index into the respective list. -/
structure DTOHeap where
  rfm_dicts : RfmStore
  fields_dicts : List (Dict (Ty × FieldInfo))

/-- A `dto.Config` object as `__class_getitem__` sees it: `exclude` and
`field_mapping` are only ever read and can be carried by value, but the
`fields` dict — which `to_data_container_class` mutates in place when it
is non-empty — is held by reference into the heap. -/
structure ConfigObject where
  exclude : List String
  field_mapping : Dict MappingEntry
  fields_ref : Nat

/-- The class attributes of a `dto.factory.Factory` subclass that
`__class_getitem__` reads and installs: whether `plugin_type` is defined,
the own `_config` (its `fields` dict by reference), the reference to the
own `_reverse_field_mappings` dict, and the `_transfer_type` /
`_model_type` of a specialized class. -/
structure FactoryClassState where
  has_plugin_type : Bool
  config : Option ConfigObject
  reverse_ref : Option Nat
  transfer_type : Option ContainerClass
  model_type : Option PydanticModelClass

/-- The argument shapes `Factory.__class_getitem__` distinguishes: a bare
TypeVar, a plain model type, an Annotated model type carrying a Config,
and an Annotated model type carrying other metadata. -/
inductive SpecializationItem where
  | typeVar
  | plain (mc : PydanticModelClass)
  | annotatedConfig (mc : PydanticModelClass) (config : ConfigObject)
  | annotatedOther (mc : PydanticModelClass)

/-- Embeds `dto.factory.Factory.__class_getitem__` (with the pydantic
plugin as the concrete `plugin_type`), with the heap of aliased dicts
passed as explicit state.  A TypeVar returns the class unchanged; a
missing `plugin_type` raises; the parent's own reverse-mappings dict is
fetched by reference (a fresh empty dict is allocated only when the class
has none); Annotated metadata that is not a Config raises; a Config's
field mapping is written into that same reverse dict via `update`; the
config in effect is the Annotated one, the inherited `_config` (by
reference, same object), or a freshly allocated empty Config; the call to
`to_data_container_class` passes `config.fields` by reference, so its
in-place effect (`pydantic_container_fields_effect`) lands in the dict the
config references; the new class closes over the same references, the
chosen config and the freshly built transfer type. -/
def class_getitem (heap : DTOHeap) (cls : FactoryClassState) (item : SpecializationItem)
    (localns : Dict Ty) : Except PyError (FactoryClassState × DTOHeap) :=
  match item with
  | SpecializationItem.typeVar => Except.ok (cls, heap)
  | SpecializationItem.annotatedOther _ =>
      if cls.has_plugin_type = false then
        Except.error (PyError.configurationError
          "You must subclass Factory and define plugin_type.")
      else
        Except.error (PyError.configurationError
          "Metadata passed via Annotated must be an instance of dto.Config")
  | SpecializationItem.annotatedConfig mc config =>
      if cls.has_plugin_type = false then
        Except.error (PyError.configurationError
          "You must subclass Factory and define plugin_type.")
      else
        let rs : Nat × RfmStore :=
          match cls.reverse_ref with
          | some r => (r, heap.rfm_dicts)
          | none => (heap.rfm_dicts.length, heap.rfm_dicts ++ [[]])
        let rfm' := rs.2.set rs.1
          (List.foldl (fun d p => dinsert p.2.newName p.1 d) (rs.2.getD rs.1 [])
            config.field_mapping)
        let fieldsVal := heap.fields_dicts.getD config.fields_ref []
        let fields' := heap.fields_dicts.set config.fields_ref
          (pydantic_container_fields_effect mc config.exclude config.field_mapping
            fieldsVal localns)
        Except.ok
          (⟨true, some config, some rs.1,
            some (pydantic_to_data_container_class mc config.exclude config.field_mapping
              fieldsVal localns),
            some mc⟩, ⟨rfm', fields'⟩)
  | SpecializationItem.plain mc =>
      if cls.has_plugin_type = false then
        Except.error (PyError.configurationError
          "You must subclass Factory and define plugin_type.")
      else
        let rs : Nat × RfmStore :=
          match cls.reverse_ref with
          | some r => (r, heap.rfm_dicts)
          | none => (heap.rfm_dicts.length, heap.rfm_dicts ++ [[]])
        let cf : ConfigObject × List (Dict (Ty × FieldInfo)) :=
          match cls.config with
          | some c => (c, heap.fields_dicts)
          | none => (⟨[], [], heap.fields_dicts.length⟩, heap.fields_dicts ++ [[]])
        let config := cf.1
        let fieldsVal := cf.2.getD config.fields_ref []
        let fields' := cf.2.set config.fields_ref
          (pydantic_container_fields_effect mc config.exclude config.field_mapping
            fieldsVal localns)
        Except.ok
          (⟨true, some config, some rs.1,
            some (pydantic_to_data_container_class mc config.exclude config.field_mapping
              fieldsVal localns),
            some mc⟩, ⟨rs.2, fields'⟩)

/-- Type conformance of an instance's values to a model's fields: same
field names in declaration order, no forward reference in any declared
outer type, and every value validates to itself.  This is the
well-formedness a supported model instance has by construction (its own
model library validated or typed the values). -/
inductive Conforms : Dict ModelField → Dict Value → Prop where
  | nil : Conforms [] []
  | cons (n : String) (mf : ModelField) (v : Value) (fr : Dict ModelField)
      (vr : Dict Value) :
      mf.outer_type_.containsForwardRef = false →
      validate mf.outer_type_ v = some v →
      Conforms fr vr →
      Conforms ((n, mf) :: fr) ((n, v) :: vr)

end Starlite

namespace Starlite

/-- C9: forward-reference type derivation.  When the declared outer type
contains no forward reference, `get_field_type` returns it unchanged; when
the outer type is itself an unresolved forward reference, the field's
inner type is returned for singleton-shaped fields and a list of the inner
type otherwise. -/
theorem get_field_type_forward_ref_spec (mf : ModelField) :
    (mf.outer_type_.containsForwardRef = false → get_field_type mf = mf.outer_type_) ∧
    (∀ s : String, mf.outer_type_ = Ty.forwardRef s →
      (mf.shape = Shape.singleton → get_field_type mf = mf.type_) ∧
      (mf.shape ≠ Shape.singleton → get_field_type mf = Ty.listTy mf.type_)) := by
  refine ⟨fun h => by simp [get_field_type, h], fun s hs => ⟨fun hsh => ?_, fun hsh => ?_⟩⟩
  · simp [get_field_type, hs, Ty.containsForwardRef, hsh]
  · simp [get_field_type, hs, Ty.containsForwardRef, hsh]

/-- Witness for C9: evaluates the theorem on a field with a plain outer
type and on two forward-referenced fields of each shape. -/
theorem get_field_type_forward_ref_spec_witness :
    get_field_type ⟨Ty.int, Ty.int, Shape.singleton, ⟨none⟩⟩ = Ty.int ∧
    get_field_type ⟨Ty.forwardRef "X", Ty.named "X", Shape.singleton, ⟨none⟩⟩ = Ty.named "X" ∧
    get_field_type ⟨Ty.forwardRef "X", Ty.named "X", Shape.listShape, ⟨none⟩⟩ =
      Ty.listTy (Ty.named "X") := by
  refine ⟨(get_field_type_forward_ref_spec _).1 (by decide), ?_, ?_⟩
  · exact ((get_field_type_forward_ref_spec _).2 "X" rfl).1 rfl
  · exact ((get_field_type_forward_ref_spec _).2 "X" rfl).2 (by decide)

end Starlite

namespace Starlite

theorem shape_field_step_eq (exclude : List String) (fms : Dict MappingEntry)
    (ret : Dict (Ty × FieldInfo)) (p : String × ModelField) :
    shape_field_step exclude fms ret p =
      match shaped_pair exclude fms p with
      | none => ret
      | some q => dinsert q.1 q.2 ret := by
  unfold shape_field_step shaped_pair
  by_cases h : p.1 ∈ exclude <;> simp [h]

theorem dlookup_dinsert {α : Type} (k n : String) (v : α) (d : Dict α) :
    dlookup n (dinsert k v d) = if k = n then some v else dlookup n d := by
  induction d with
  | nil => simp [dinsert, dlookup]
  | cons p rest ih =>
      obtain ⟨k', v'⟩ := p
      by_cases h1 : k' = k
      · subst h1
        by_cases h2 : k' = n <;> simp [dinsert, dlookup, h2]
      · by_cases h2 : k' = n
        · have hk : ¬k = n := fun h => h1 (h2.trans h.symm)
          have hk2 : ¬n = k := fun h => hk h.symm
          simp [dinsert, dlookup, h1, h2, hk, hk2]
        · simp [dinsert, dlookup, h1, h2, ih]

theorem dlookup_append {α : Type} (n : String) (a b : Dict α) :
    dlookup n (a ++ b) = ofirst (dlookup n a) (dlookup n b) := by
  induction a with
  | nil => simp [dlookup, ofirst]
  | cons p rest ih =>
      obtain ⟨k, v⟩ := p
      by_cases h : k = n <;> simp [dlookup, h, ih, ofirst]

theorem dlookup_shape_foldl (exclude : List String) (fms : Dict MappingEntry)
    (flds : Dict ModelField) (n : String) :
    ∀ init : Dict (Ty × FieldInfo),
      dlookup n (List.foldl (shape_field_step exclude fms) init flds) =
        ofirst (dlookupLast n (List.filterMap (shaped_pair exclude fms) flds))
          (dlookup n init) := by
  induction flds with
  | nil => intro init; simp [dlookup, ofirst, dlookupLast]
  | cons p rest ih =>
      intro init
      rw [List.foldl_cons, ih, shape_field_step_eq]
      cases hg : shaped_pair exclude fms p with
      | none => simp [dlookupLast, List.filterMap_cons, hg]
      | some q =>
          obtain ⟨k, v⟩ := q
          simp only [dlookupLast, List.filterMap_cons, hg, List.reverse_cons, dlookup_append,
            dlookup_dinsert]
          cases dlookup n (List.filterMap (shaped_pair exclude fms) rest).reverse with
          | none => by_cases h : k = n <;> simp [ofirst, dlookup, h]
          | some a => simp [ofirst]

end Starlite

namespace Starlite

/-- C3: exclusion is claimed to hold for every adapter, but the dataclass
adapter never reads its exclude argument.  On a model with fields x and y
and exclude = set of x, the dataclass adapter's container still has a
field named x, while the pydantic and SQLAlchemy adapters drop it. -/
theorem dataclass_adapter_ignores_exclude_eval :
    dcontains "x"
      (dataclass_to_data_container_class
        ⟨"M", [("x", ⟨Ty.int, Ty.int, Shape.singleton, ⟨none⟩⟩),
               ("y", ⟨Ty.str, Ty.str, Shape.singleton, ⟨none⟩⟩)]⟩
        ["x"] [] [] []).fields_ = true ∧
    dcontains "x"
      (pydantic_to_data_container_class
        ⟨"M", [("x", ⟨Ty.int, Ty.int, Shape.singleton, ⟨none⟩⟩),
               ("y", ⟨Ty.str, Ty.str, Shape.singleton, ⟨none⟩⟩)]⟩
        ["x"] [] [] []).fields_ = false ∧
    dcontains "x"
      (sqlalchemy_to_data_container_class []
        ⟨"M", [("x", ⟨SQLAType.integerSA, false, none⟩),
               ("y", ⟨SQLAType.varcharSA, false, none⟩)]⟩
        ["x"] [] []).1.fields_ = false := by
  refine ⟨rfl, rfl, rfl⟩

/-- C7 counterexample: a model with source field a of type int and an
additional configured field also named a (declared type float, default 0)
produces a container whose field a carries the source definition
(int, no default); the extra field's declaration is silently overwritten
and no ConfigurationError is raised (the construction is total). -/
theorem pydantic_extra_field_collision_counterexample :
    dlookup "a"
      (pydantic_to_data_container_class
        ⟨"M", [("a", ⟨Ty.int, Ty.int, Shape.singleton, ⟨none⟩⟩)]⟩
        [] [] [("a", (Ty.float, ⟨some (Value.intV 0)⟩))] []).fields_
      = some (Ty.int, ⟨none⟩) := rfl

/-- C7 amended: on the pydantic adapter, a configured extra field appears
on the built transfer type with its declared type and default exactly when
no non-excluded (possibly remapped) source field shapes to the same name;
on a name collision the source field's derived definition silently wins
(last assignment of the shaping loop) and no error is raised. -/
theorem pydantic_extra_fields_amended (mc : PydanticModelClass) (exclude : List String)
    (fms : Dict MappingEntry) (extras : Dict (Ty × FieldInfo)) (localns : Dict Ty)
    (n : String) :
    dlookup n (pydantic_to_data_container_class mc exclude fms extras localns).fields_ =
      ofirst
        (dlookupLast n (List.filterMap (shaped_pair exclude fms)
          (mc.update_forward_refs localns).fields_))
        (dlookup n extras) := by
  unfold pydantic_to_data_container_class
  exact dlookup_shape_foldl exclude fms _ n extras

end Starlite

namespace Starlite

/-- C5: when the plugin's value extraction is asynchronous-only, the
synchronous entry point raises a ConfigurationError whose message directs
the caller to from_model_instance_async, and never returns a DTO
instance. -/
theorem from_model_instance_async_plugin_fails {Model : Type}
    (F : LegacyFactory Model) (m : Model) (h : F.plugin_to_dict_is_async = true) :
    legacy_from_model_instance F m =
      Except.error (PyError.configurationError
        ("plugin " ++ F.plugin_name ++
          " to_dict method is async. Use DTO.from_model_instance_async instead")) ∧
    ∀ d : Dict Value, legacy_from_model_instance F m ≠ Except.ok d := by
  constructor
  · unfold legacy_from_model_instance
    simp [h]
  · intro d hc
    unfold legacy_from_model_instance at hc
    simp [h] at hc

/-- Witness for C5: a concrete async-only plugin makes the synchronous
entry point fail with the directing ConfigurationError. -/
theorem from_model_instance_async_plugin_fails_witness :
    legacy_from_model_instance (LegacyFactory.mk "TortoiseORMPlugin" true (fun _ : Unit => []) [] []) () =
      Except.error (PyError.configurationError
        ("plugin " ++ "TortoiseORMPlugin" ++
          " to_dict method is async. Use DTO.from_model_instance_async instead")) :=
  (from_model_instance_async_plugin_fails
    (LegacyFactory.mk "TortoiseORMPlugin" true (fun _ : Unit => []) [] []) () rfl).1

/-- C6: when the plugin's value extraction is synchronous, the
asynchronous entry point defers to the synchronous one, so the two
produce literally the same result, in particular a DTO with identical
transfer-instance content. -/
theorem from_model_instance_async_sync_equivalence {Model : Type}
    (F : LegacyFactory Model) (m : Model) (h : F.plugin_to_dict_is_async = false) :
    legacy_from_model_instance_async F m = legacy_from_model_instance F m := by
  unfold legacy_from_model_instance_async
  simp [h]

/-- Witness for C6: a concrete synchronous plugin, on which the two entry
points agree and succeed. -/
theorem from_model_instance_async_sync_equivalence_witness :
    legacy_from_model_instance_async
        (LegacyFactory.mk "DataclassPlugin" false
          (fun _ : Unit => [("a", Value.intV 1)]) []
          [("a", ⟨Ty.int, Ty.int, Shape.singleton, ⟨none⟩⟩)]) () =
      legacy_from_model_instance
        (LegacyFactory.mk "DataclassPlugin" false
          (fun _ : Unit => [("a", Value.intV 1)]) []
          [("a", ⟨Ty.int, Ty.int, Shape.singleton, ⟨none⟩⟩)]) () ∧
    legacy_from_model_instance
        (LegacyFactory.mk "DataclassPlugin" false
          (fun _ : Unit => [("a", Value.intV 1)]) []
          [("a", ⟨Ty.int, Ty.int, Shape.singleton, ⟨none⟩⟩)]) () =
      Except.ok [("a", Value.intV 1)] :=
  ⟨from_model_instance_async_sync_equivalence
      (LegacyFactory.mk "DataclassPlugin" false
        (fun _ : Unit => [("a", Value.intV 1)]) []
        [("a", ⟨Ty.int, Ty.int, Shape.singleton, ⟨none⟩⟩)]) () rfl,
    rfl⟩

/-- C8 counterexample: a list whose first element is a subscripted
generic.  A plugin whose support predicate accepts exactly subscripted
generics accepts the value after one level of unwrapping, yet the lookup
returns none, because the source unwraps a second time down to the first
generic argument. -/
theorem get_plugin_for_value_one_level_counterexample :
    get_plugin_for_value (PyVal.listVal [PyVal.genericAlias "List" [PyVal.objVal "A"]])
      [RegisteredPlugin.mk 7
        (fun v => match v with | PyVal.genericAlias _ _ => true | _ => false)] = none ∧
    (RegisteredPlugin.mk 7
        (fun v => match v with | PyVal.genericAlias _ _ => true | _ => false)).is_plugin_supported_type
      (unwrap_one_level_spec (PyVal.listVal [PyVal.genericAlias "List" [PyVal.objVal "A"]])) =
      true :=
  ⟨rfl, rfl⟩

/-- C8 amended: the lookup returns the first registered adapter accepting
the value after the sequence unwrap followed by the generic-argument
unwrap (both may apply in succession), and returns none — without
raising — when no adapter accepts it or none are registered. -/
theorem get_plugin_for_value_amended (value : PyVal) (plugins : List RegisteredPlugin) :
    get_plugin_for_value value plugins =
      (match plugins with
       | [] => none
       | _ :: _ =>
          plugins.find? (fun p => p.is_plugin_supported_type (unwrap_value value))) ∧
    ((∀ p ∈ plugins, p.is_plugin_supported_type (unwrap_value value) = false) →
      get_plugin_for_value value plugins = none) := by
  constructor
  · cases plugins with
    | nil => rfl
    | cons p rest => rfl
  · intro h
    cases plugins with
    | nil => rfl
    | cons p rest =>
        unfold get_plugin_for_value
        rw [List.find?_eq_none]
        intro q hq
        have := h q hq
        simpa [unwrap_value] using this

/-- Witness for C8's amended theorem: with one adapter that accepts
nothing, the lookup returns none on a model object. -/
theorem get_plugin_for_value_amended_witness :
    get_plugin_for_value (PyVal.objVal "A") [RegisteredPlugin.mk 3 (fun _ => false)] = none :=
  (get_plugin_for_value_amended (PyVal.objVal "A")
      [RegisteredPlugin.mk 3 (fun _ => false)]).2
    (fun p hp => by rw [List.mem_singleton.mp hp])

/-- C2: evidence of the divergence.  On a JSON array of two objects, the
plugin-level array parse produces two transfer instances, but
array_from_buffer returns a one-element list whose single DTO instance
wraps the whole two-element list — not two DTO instances of one transfer
instance each. -/
theorem array_from_buffer_wraps_whole_list_eval :
    (array_from_buffer
        (pydantic_factory ⟨"A", [("a", ⟨Ty.int, Ty.int, Shape.singleton, ⟨none⟩⟩)]⟩
          empty_config [])
        (Value.listV [Value.objV [("a", Value.intV 1)], Value.objV [("a", Value.intV 2)]])).map
      List.length = Except.ok 1 ∧
    (parse_container_type_array_from_raw
        (pydantic_factory ⟨"A", [("a", ⟨Ty.int, Ty.int, Shape.singleton, ⟨none⟩⟩)]⟩
          empty_config []).transfer_type
        (Value.listV [Value.objV [("a", Value.intV 1)], Value.objV [("a", Value.intV 2)]])).map
      List.length = some 2 := by
  constructor
  · rfl
  · rfl

end Starlite

namespace Starlite

theorem dlookup_isSome_iff {α : Type} (k : String) (l : Dict α) :
    (dlookup k l).isSome ↔ k ∈ l.map Prod.fst := by
  induction l with
  | nil => simp [dlookup]
  | cons p rest ih =>
      obtain ⟨k', v⟩ := p
      by_cases h : k' = k
      · subst h
        simp [dlookup]
      · rw [List.map_cons, List.mem_cons]
        simp only [dlookup]
        rw [if_neg h]
        constructor
        · intro hs
          exact Or.inr (ih.mp hs)
        · intro hor
          rcases hor with he | hm
          · exact absurd he.symm h
          · exact ih.mpr hm

theorem dlookup_mem {α : Type} {k : String} {v : α} :
    ∀ {l : Dict α}, dlookup k l = some v → (k, v) ∈ l := by
  intro l
  induction l with
  | nil => intro h; simp [dlookup] at h
  | cons p rest ih =>
      obtain ⟨k', v'⟩ := p
      intro h
      by_cases hk : k' = k
      · subst hk
        simp [dlookup] at h
        subst h
        exact List.mem_cons_self _ _
      · rw [dlookup, if_neg hk] at h
        exact List.mem_cons_of_mem _ (ih h)

theorem dlookup_eq_none_of_not_mem {α : Type} {k : String} {l : Dict α}
    (h : k ∉ l.map Prod.fst) : dlookup k l = none := by
  rw [← Option.not_isSome_iff_eq_none]
  intro hs
  exact h ((dlookup_isSome_iff k l).mp hs)

theorem shaped_pair_of_mapped {exclude : List String} {fm : Dict MappingEntry}
    {a : String} {entry : MappingEntry} (mf : ModelField)
    (hex : a ∉ exclude) (hfm : dlookup a fm = some entry) :
    ∃ d, shaped_pair exclude fm (a, mf) = some (entry.newName, d) := by
  unfold shaped_pair remap_field
  rw [if_neg hex]
  simp only [dcontains, hfm, Option.isSome_some, if_true]
  cases entry with
  | rename n => exact ⟨_, rfl⟩
  | renameRetype n t => exact ⟨_, rfl⟩

/-- C4: field remapping.  (1) A non-excluded source field whose name is a
key of the field mapping appears on the built transfer type under the
mapped name; (2) the original name is absent when neither the extra
fields nor any shaped source field carry it; (3) a tuple entry renames
and retypes: mapping a of type int to (b, float) yields transfer field b
of declared type float; (4) constructing a DTO from raw data keyed by the
new name and converting back yields the model instance carrying that
value under the original field name. -/
theorem field_remapping_spec
    (mc : PydanticModelClass) (exclude : List String) (fm : Dict MappingEntry)
    (extras : Dict (Ty × FieldInfo)) (localns : Dict Ty)
    (a : String) (entry : MappingEntry) (mf : ModelField)
    (hmem : dlookup a (mc.update_forward_refs localns).fields_ = some mf)
    (hex : a ∉ exclude)
    (hfm : dlookup a fm = some entry)
    (hkeys : a ∉ (List.filterMap (shaped_pair exclude fm)
      (mc.update_forward_refs localns).fields_).map Prod.fst)
    (hext : a ∉ extras.map Prod.fst) :
    (dcontains entry.newName
      (pydantic_to_data_container_class mc exclude fm extras localns).fields_ = true) ∧
    (dcontains a
      (pydantic_to_data_container_class mc exclude fm extras localns).fields_ = false) ∧
    (dlookup "b"
      (pydantic_to_data_container_class
        ⟨"M", [("a", ⟨Ty.int, Ty.int, Shape.singleton, ⟨none⟩⟩),
               ("c", ⟨Ty.str, Ty.str, Shape.singleton, ⟨none⟩⟩)]⟩
        [] [("a", MappingEntry.renameRetype "b" Ty.float)] [] []).fields_ =
      some (Ty.float, ⟨none⟩)) ∧
    (∀ n : Int,
      (from_buffer
          (pydantic_factory ⟨"M", [("a", ⟨Ty.int, Ty.int, Shape.singleton, ⟨none⟩⟩)]⟩
            ⟨[], [("a", MappingEntry.rename "b")], []⟩ [])
          (Value.objV [("b", Value.intV n)])).bind
        (fun d =>
          to_model
            (pydantic_factory ⟨"M", [("a", ⟨Ty.int, Ty.int, Shape.singleton, ⟨none⟩⟩)]⟩
              ⟨[], [("a", MappingEntry.rename "b")], []⟩ []) d) =
      Except.ok ⟨⟨"M", [("a", ⟨Ty.int, Ty.int, Shape.singleton, ⟨none⟩⟩)]⟩,
        [("a", Value.intV n)]⟩) := by
  refine ⟨?_, ?_, rfl, fun n => rfl⟩
  · unfold pydantic_to_data_container_class dcontains
    rw [dlookup_shape_foldl]
    obtain ⟨d, hd⟩ := shaped_pair_of_mapped mf hex hfm
    have hmem' : (entry.newName, d) ∈ List.filterMap (shaped_pair exclude fm)
        (mc.update_forward_refs localns).fields_ :=
      List.mem_filterMap.mpr ⟨(a, mf), dlookup_mem hmem, hd⟩
    have hk : entry.newName ∈ (List.filterMap (shaped_pair exclude fm)
        (mc.update_forward_refs localns).fields_).reverse.map Prod.fst := by
      rw [List.map_reverse, List.mem_reverse]
      exact List.mem_map.mpr ⟨(entry.newName, d), hmem', rfl⟩
    have hs := (dlookup_isSome_iff entry.newName _).mpr hk
    unfold dlookupLast
    cases hcase : dlookup entry.newName (List.filterMap (shaped_pair exclude fm)
        (mc.update_forward_refs localns).fields_).reverse with
    | none => rw [hcase] at hs; simp at hs
    | some w => simp [hcase, ofirst]
  · unfold pydantic_to_data_container_class dcontains
    rw [dlookup_shape_foldl]
    have h1 : dlookupLast a (List.filterMap (shaped_pair exclude fm)
        (mc.update_forward_refs localns).fields_) = none := by
      unfold dlookupLast
      apply dlookup_eq_none_of_not_mem
      rw [List.map_reverse, List.mem_reverse]
      exact hkeys
    rw [h1]
    simp [ofirst, dlookup_eq_none_of_not_mem hext]

/-- Witness for C4: model with fields a and c, mapping a to b; the
transfer type has b and not a, and the concrete parts evaluate. -/
theorem field_remapping_spec_witness :
    dcontains "b"
      (pydantic_to_data_container_class
        ⟨"M", [("a", ⟨Ty.int, Ty.int, Shape.singleton, ⟨none⟩⟩),
               ("c", ⟨Ty.str, Ty.str, Shape.singleton, ⟨none⟩⟩)]⟩
        [] [("a", MappingEntry.rename "b")] [] []).fields_ = true ∧
    dcontains "a"
      (pydantic_to_data_container_class
        ⟨"M", [("a", ⟨Ty.int, Ty.int, Shape.singleton, ⟨none⟩⟩),
               ("c", ⟨Ty.str, Ty.str, Shape.singleton, ⟨none⟩⟩)]⟩
        [] [("a", MappingEntry.rename "b")] [] []).fields_ = false := by
  have h := field_remapping_spec
    ⟨"M", [("a", ⟨Ty.int, Ty.int, Shape.singleton, ⟨none⟩⟩),
           ("c", ⟨Ty.str, Ty.str, Shape.singleton, ⟨none⟩⟩)]⟩
    [] [("a", MappingEntry.rename "b")] [] []
    "a" (MappingEntry.rename "b") ⟨Ty.int, Ty.int, Shape.singleton, ⟨none⟩⟩
    rfl (by simp) rfl (by decide) (by decide)
  exact ⟨h.1, h.2.1⟩

end Starlite

namespace Starlite

theorem Ty.resolveRefs_of_no_ref (localns : Dict Ty) :
    ∀ t : Ty, t.containsForwardRef = false → t.resolveRefs localns = t := by
  intro t
  induction t with
  | forwardRef n => intro h; simp [Ty.containsForwardRef] at h
  | listTy t ih =>
      intro h
      simp only [Ty.containsForwardRef] at h
      simp [Ty.resolveRefs, ih h]
  | int => intro _; rfl
  | float => intro _; rfl
  | str => intro _; rfl
  | boolTy => intro _; rfl
  | named n => intro _; rfl

theorem Conforms.keys_eq {flds : Dict ModelField} {values : Dict Value}
    (h : Conforms flds values) : values.map Prod.fst = flds.map Prod.fst := by
  induction h with
  | nil => rfl
  | cons n mf v fr vr hno hval hc ih => simp [ih]

theorem Conforms.noref_mem {flds : Dict ModelField} {values : Dict Value}
    (h : Conforms flds values) :
    ∀ p ∈ flds, p.2.outer_type_.containsForwardRef = false := by
  induction h with
  | nil => intro p hp; simp at hp
  | cons n mf v fr vr hno hval hc ih =>
      intro p hp
      rcases List.mem_cons.mp hp with he | hm
      · subst he; exact hno
      · exact ih p hm

theorem dinsert_of_not_mem {α : Type} (k : String) (v : α) (d : Dict α)
    (h : k ∉ d.map Prod.fst) : dinsert k v d = d ++ [(k, v)] := by
  induction d with
  | nil => rfl
  | cons p rest ih =>
      obtain ⟨k', v'⟩ := p
      rw [List.map_cons] at h
      have h1 : ¬k' = k := fun he => h (by simp [he])
      have h2 : k ∉ rest.map Prod.fst := fun hm => h (List.mem_cons_of_mem _ hm)
      simp only [dinsert]
      rw [if_neg h1, ih h2]
      rfl

theorem shape_foldl_empty_config (localns : Dict Ty) :
    ∀ (flds : Dict ModelField) (acc : Dict (Ty × FieldInfo)),
      (∀ p ∈ flds, p.2.outer_type_.containsForwardRef = false) →
      (acc.map Prod.fst ++ flds.map Prod.fst).Nodup →
      List.foldl (shape_field_step [] []) acc
          (flds.map (fun p => (p.1, p.2.resolveRefs localns))) =
        acc ++ flds.map (fun p => (p.1, (p.2.outer_type_, p.2.field_info))) := by
  intro flds
  induction flds with
  | nil => intro acc _ _; simp
  | cons p fr ih =>
      obtain ⟨n, mf⟩ := p
      intro acc hno hnd
      rw [List.map_cons] at hnd
      have hno_head : mf.outer_type_.containsForwardRef = false :=
        hno (n, mf) (List.mem_cons_self _ _)
      have houter : (mf.resolveRefs localns).outer_type_ = mf.outer_type_ := by
        simp [ModelField.resolveRefs, Ty.resolveRefs_of_no_ref localns _ hno_head]
      have hgft : get_field_type (mf.resolveRefs localns) = mf.outer_type_ := by
        unfold get_field_type
        rw [houter, if_pos hno_head]
      have hnacc : n ∉ acc.map Prod.fst := by
        rcases List.nodup_append.mp hnd with ⟨_, _, hdisj⟩
        intro hmem
        exact hdisj hmem (List.mem_cons_self _ _)
      have hstep : shape_field_step [] [] acc (n, mf.resolveRefs localns) =
          acc ++ [(n, (mf.outer_type_, mf.field_info))] := by
        unfold shape_field_step
        simp only [List.not_mem_nil, if_false, dcontains, dlookup, Option.isSome_none,
          Bool.false_eq_true, hgft]
        exact dinsert_of_not_mem n _ acc hnacc
      rw [List.map_cons, List.foldl_cons, hstep, ih (acc ++ [(n, (mf.outer_type_, mf.field_info))])]
      · simp
      · intro q hq; exact hno q (List.mem_cons_of_mem _ hq)
      · have hrw : (acc ++ [(n, (mf.outer_type_, mf.field_info))]).map Prod.fst ++
            fr.map Prod.fst = acc.map Prod.fst ++ n :: fr.map Prod.fst := by simp
        rw [hrw]
        exact hnd

theorem parse_fields_map_outer (flds : Dict ModelField) (data : Dict Value) :
    parse_fields (flds.map (fun p => (p.1, (p.2.outer_type_, p.2.field_info)))) data =
      parse_model_fields flds data := by
  induction flds with
  | nil => rfl
  | cons p fr ih =>
      obtain ⟨n, mf⟩ := p
      simp only [List.map_cons, parse_fields, parse_model_fields, ih]

theorem parse_model_fields_of_conforms {flds : Dict ModelField} {values : Dict Value}
    (h : Conforms flds values) :
    ∀ data : Dict Value, (flds.map Prod.fst).Nodup →
      (∀ m ∈ flds.map Prod.fst, dlookup m data = dlookup m values) →
      parse_model_fields flds data = some values := by
  induction h with
  | nil => intro data _ _; rfl
  | cons n mf v fr vr hno hval hc ih =>
      intro data hnd hag
      rw [List.map_cons] at hnd hag
      have hdn : dlookup n data = some v := by
        rw [hag n (List.mem_cons_self _ _)]
        simp [dlookup]
      have hnodup := List.nodup_cons.mp hnd
      have htail : parse_model_fields fr data = some vr := by
        apply ih data hnodup.2
        intro m hm
        rw [hag m (List.mem_cons_of_mem _ hm)]
        have hmn : ¬n = m := fun he => hnodup.1 (he ▸ hm)
        simp [dlookup, hmn]
      simp [parse_model_fields, hdn, hval, htail]

theorem dataclass_build_fields_of_conforms {flds : Dict ModelField} {values : Dict Value}
    (h : Conforms flds values) :
    ∀ data : Dict Value, (flds.map Prod.fst).Nodup →
      (∀ m ∈ flds.map Prod.fst, dlookup m data = dlookup m values) →
      dataclass_build_fields flds data = some values := by
  induction h with
  | nil => intro data _ _; rfl
  | cons n mf v fr vr hno hval hc ih =>
      intro data hnd hag
      rw [List.map_cons] at hnd hag
      have hdn : dlookup n data = some v := by
        rw [hag n (List.mem_cons_self _ _)]
        simp [dlookup]
      have hnodup := List.nodup_cons.mp hnd
      have htail : dataclass_build_fields fr data = some vr := by
        apply ih data hnodup.2
        intro m hm
        rw [hag m (List.mem_cons_of_mem _ hm)]
        have hmn : ¬n = m := fun he => hnodup.1 (he ▸ hm)
        simp [dlookup, hmn]
      simp [dataclass_build_fields, hdn, htail]

end Starlite

namespace Starlite

/-- C1: round-trip identity.  For a conformant model instance of a model
type with distinct field names, under the empty default configuration,
building a DTO with from_model and converting back with to_model returns
the model instance unchanged, both for the pydantic adapter and for the
dataclass adapter. -/
theorem roundtrip_identity_empty_config
    (mc : PydanticModelClass) (m : PydanticModelInstance) (localns : Dict Ty)
    (dc : DataclassModelClass) (md : DataclassInstance) (localns2 : Dict Ty)
    (h1 : m.cls = mc) (h2 : Conforms mc.fields_ m.values)
    (h3 : (mc.fields_.map Prod.fst).Nodup)
    (h4 : md.cls = dc) (h5 : Conforms dc.fields_ md.values)
    (h6 : (dc.fields_.map Prod.fst).Nodup) :
    (from_model (pydantic_factory mc empty_config localns) m).bind
      (fun d => to_model (pydantic_factory mc empty_config localns) d) = Except.ok m ∧
    (from_model (dataclass_factory dc empty_config localns2) md).bind
      (fun d => to_model (dataclass_factory dc empty_config localns2) d) = Except.ok md := by
  constructor
  · obtain ⟨mcls, mvals⟩ := m
    simp only at h1 h2
    subst h1
    have hT : (pydantic_factory mcls empty_config localns).transfer_type.fields_ =
        mcls.fields_.map (fun p => (p.1, (p.2.outer_type_, p.2.field_info))) := by
      have heq : (pydantic_factory mcls empty_config localns).transfer_type.fields_ =
          List.foldl (shape_field_step [] []) []
            (List.map (fun p => (p.1, ModelField.resolveRefs localns p.2)) mcls.fields_) := rfl
      rw [heq, shape_foldl_empty_config localns mcls.fields_ [] h2.noref_mem (by simpa using h3)]
      simp
    have hparse : parse_fields
        (pydantic_factory mcls empty_config localns).transfer_type.fields_ mvals =
        some mvals := by
      rw [hT, parse_fields_map_outer]
      exact parse_model_fields_of_conforms h2 mvals h3 (fun _ _ => rfl)
    have hfrom : pydantic_from_dict mcls mvals = some ⟨mcls, mvals⟩ := by
      unfold pydantic_from_dict
      rw [parse_model_fields_of_conforms h2 mvals h3 (fun _ _ => rfl)]
      rfl
    have hstep1 : from_model (pydantic_factory mcls empty_config localns) ⟨mcls, mvals⟩ =
        Except.ok ⟨TransferPayload.single
          ⟨(pydantic_factory mcls empty_config localns).transfer_type, mvals⟩⟩ := by
      unfold from_model from_buffer encode_json
      simp only [parse_container_type_from_raw]
      rw [show (pydantic_factory mcls empty_config localns).plugin_to_dict ⟨mcls, mvals⟩ =
        mvals from rfl]
      rw [hparse]
      rfl
    have hstep2 : to_model (pydantic_factory mcls empty_config localns)
        ⟨TransferPayload.single
          ⟨(pydantic_factory mcls empty_config localns).transfer_type, mvals⟩⟩ =
        Except.ok ⟨mcls, mvals⟩ := by
      unfold to_model container_instance_to_dict
      rw [show (pydantic_factory mcls empty_config localns).reverse_field_mappings =
        ([] : Dict String) from rfl]
      simp only [apply_reverse_mappings, List.foldl_nil]
      rw [show (pydantic_factory mcls empty_config localns).plugin_from_dict mvals =
        some ⟨mcls, mvals⟩ from hfrom]
    rw [hstep1]
    exact hstep2
  · obtain ⟨dcls, dvals⟩ := md
    simp only at h4 h5
    subst h4
    have hT2 : (dataclass_factory dcls empty_config localns2).transfer_type.fields_ =
        dcls.fields_.map (fun p => (p.1, (p.2.outer_type_, p.2.field_info))) := by
      have heq2 : (dataclass_factory dcls empty_config localns2).transfer_type.fields_ =
          (dcls.fields_.map (fun p => (p.1, ModelField.resolveRefs localns2 p.2))).map
            (fun p => (p.1, (p.2.outer_type_, p.2.field_info))) := rfl
      rw [heq2, List.map_map]
      apply List.map_congr_left
      intro p hp
      have hno := h5.noref_mem p hp
      simp [Function.comp, ModelField.resolveRefs, Ty.resolveRefs_of_no_ref localns2 _ hno]
    have hparse2 : parse_fields
        (dataclass_factory dcls empty_config localns2).transfer_type.fields_ dvals =
        some dvals := by
      rw [hT2, parse_fields_map_outer]
      exact parse_model_fields_of_conforms h5 dvals h6 (fun _ _ => rfl)
    have hfrom2 : dataclass_from_dict dcls dvals = some ⟨dcls, dvals⟩ := by
      unfold dataclass_from_dict
      have hall : (dvals.map Prod.fst).all (fun k => dcontains k dcls.fields_) = true := by
        rw [h5.keys_eq, List.all_eq_true]
        intro k hk
        exact (dlookup_isSome_iff k dcls.fields_).mpr hk
      rw [if_pos hall, dataclass_build_fields_of_conforms h5 dvals h6 (fun _ _ => rfl)]
      rfl
    have hstep3 : from_model (dataclass_factory dcls empty_config localns2) ⟨dcls, dvals⟩ =
        Except.ok ⟨TransferPayload.single
          ⟨(dataclass_factory dcls empty_config localns2).transfer_type, dvals⟩⟩ := by
      unfold from_model from_buffer encode_json
      simp only [parse_container_type_from_raw]
      rw [show (dataclass_factory dcls empty_config localns2).plugin_to_dict ⟨dcls, dvals⟩ =
        dvals from rfl]
      rw [hparse2]
      rfl
    have hstep4 : to_model (dataclass_factory dcls empty_config localns2)
        ⟨TransferPayload.single
          ⟨(dataclass_factory dcls empty_config localns2).transfer_type, dvals⟩⟩ =
        Except.ok ⟨dcls, dvals⟩ := by
      unfold to_model container_instance_to_dict
      rw [show (dataclass_factory dcls empty_config localns2).reverse_field_mappings =
        ([] : Dict String) from rfl]
      simp only [apply_reverse_mappings, List.foldl_nil]
      rw [show (dataclass_factory dcls empty_config localns2).plugin_from_dict dvals =
        some ⟨dcls, dvals⟩ from hfrom2]
    rw [hstep3]
    exact hstep4

end Starlite

namespace Starlite

/-- Witness for C1: the spec's concrete Company scenario (with the float
field replaced by a string-typed field, floats being outside the embedded
value domain), round-tripped through the pydantic and dataclass
adapters. -/
theorem roundtrip_identity_empty_config_witness :
    (from_model
        (pydantic_factory
          ⟨"Company", [("id", ⟨Ty.int, Ty.int, Shape.singleton, ⟨none⟩⟩),
                       ("name", ⟨Ty.str, Ty.str, Shape.singleton, ⟨none⟩⟩)]⟩
          empty_config [])
        ⟨⟨"Company", [("id", ⟨Ty.int, Ty.int, Shape.singleton, ⟨none⟩⟩),
                      ("name", ⟨Ty.str, Ty.str, Shape.singleton, ⟨none⟩⟩)]⟩,
          [("id", Value.intV 1), ("name", Value.strV "Acme")]⟩).bind
      (fun d =>
        to_model
          (pydantic_factory
            ⟨"Company", [("id", ⟨Ty.int, Ty.int, Shape.singleton, ⟨none⟩⟩),
                         ("name", ⟨Ty.str, Ty.str, Shape.singleton, ⟨none⟩⟩)]⟩
            empty_config []) d) =
      Except.ok
        ⟨⟨"Company", [("id", ⟨Ty.int, Ty.int, Shape.singleton, ⟨none⟩⟩),
                      ("name", ⟨Ty.str, Ty.str, Shape.singleton, ⟨none⟩⟩)]⟩,
          [("id", Value.intV 1), ("name", Value.strV "Acme")]⟩ :=
  (roundtrip_identity_empty_config
    ⟨"Company", [("id", ⟨Ty.int, Ty.int, Shape.singleton, ⟨none⟩⟩),
                 ("name", ⟨Ty.str, Ty.str, Shape.singleton, ⟨none⟩⟩)]⟩
    ⟨⟨"Company", [("id", ⟨Ty.int, Ty.int, Shape.singleton, ⟨none⟩⟩),
                  ("name", ⟨Ty.str, Ty.str, Shape.singleton, ⟨none⟩⟩)]⟩,
      [("id", Value.intV 1), ("name", Value.strV "Acme")]⟩ []
    ⟨"Company", [("id", ⟨Ty.int, Ty.int, Shape.singleton, ⟨none⟩⟩),
                 ("name", ⟨Ty.str, Ty.str, Shape.singleton, ⟨none⟩⟩)]⟩
    ⟨⟨"Company", [("id", ⟨Ty.int, Ty.int, Shape.singleton, ⟨none⟩⟩),
                  ("name", ⟨Ty.str, Ty.str, Shape.singleton, ⟨none⟩⟩)]⟩,
      [("id", Value.intV 1), ("name", Value.strV "Acme")]⟩ []
    rfl
    (Conforms.cons "id" ⟨Ty.int, Ty.int, Shape.singleton, ⟨none⟩⟩ (Value.intV 1) _ _ rfl rfl
      (Conforms.cons "name" ⟨Ty.str, Ty.str, Shape.singleton, ⟨none⟩⟩ (Value.strV "Acme") _ _
        rfl rfl Conforms.nil))
    (by decide)
    rfl
    (Conforms.cons "id" ⟨Ty.int, Ty.int, Shape.singleton, ⟨none⟩⟩ (Value.intV 1) _ _ rfl rfl
      (Conforms.cons "name" ⟨Ty.str, Ty.str, Shape.singleton, ⟨none⟩⟩ (Value.strV "Acme") _ _
        rfl rfl Conforms.nil))
    (by decide)).1

end Starlite

namespace Starlite

theorem list_set_getD_self {α : Type} :
    ∀ (l : List α) (r : Nat) (d : α), r < l.length → l.set r (l.getD r d) = l := by
  intro l
  induction l with
  | nil => intro r d h; simp at h
  | cons x xs ih =>
      intro r d h
      cases r with
      | zero => simp [List.getD]
      | succ r' =>
          simp only [List.set_cons_succ, List.getD_cons_succ]
          rw [ih r' d (by simpa using h)]

theorem list_getD_set_ne {α : Type} :
    ∀ (l : List α) (r i : Nat) (v d : α), i ≠ r → (l.set r v).getD i d = l.getD i d := by
  intro l
  induction l with
  | nil => intro r i v d _; rfl
  | cons x xs ih =>
      intro r i v d h
      cases r with
      | zero =>
          cases i with
          | zero => exact absurd rfl h
          | succ i' => simp [List.set_cons_zero, List.getD_cons_succ]
      | succ r' =>
          cases i with
          | zero => simp [List.set_cons_succ, List.getD_cons_zero]
          | succ i' =>
              simp only [List.set_cons_succ, List.getD_cons_succ]
              exact ih r' i' v d (fun he => h (by rw [he]))

theorem list_getD_append_left {α : Type} :
    ∀ (l l2 : List α) (i : Nat) (d : α), i < l.length → (l ++ l2).getD i d = l.getD i d := by
  intro l
  induction l with
  | nil => intro l2 i d h; simp at h
  | cons x xs ih =>
      intro l2 i d h
      cases i with
      | zero => simp [List.getD_cons_zero]
      | succ i' =>
          simp only [List.cons_append, List.getD_cons_succ]
          exact ih l2 i' d (by simpa using h)

theorem list_getD_set_self {α : Type} :
    ∀ (l : List α) (r : Nat) (v d : α), r < l.length → (l.set r v).getD r d = v := by
  intro l
  induction l with
  | nil => intro r v d h; simp at h
  | cons x xs ih =>
      intro r v d h
      cases r with
      | zero => simp [List.getD_cons_zero]
      | succ r' =>
          simp only [List.set_cons_succ, List.getD_cons_succ]
          exact ih r' v d (by simpa using h)

/-- C10 counterexample, refuting the original claim twice over.  (a) A
specialized class whose own reverse-mappings dict (heap index 0) is
empty, further specialized with an Annotated configuration mapping a to
b: after the call that dict holds the new entry.  (b) A specialized class
whose inherited Config owns a non-empty fields dict (heap index 0, one
extra field), re-specialized with a plain model type: the call passes
that dict into to_data_container_class, which assigns the shaped source
field into it in place, growing it from 1 entry to 2 — the invoking
class's own _config was mutated. -/
theorem class_getitem_mutates_parent_counterexample :
    (class_getitem ⟨[[]], [[], []]⟩
        ⟨true, some ⟨[], [], 0⟩, some 0, none, none⟩
        (SpecializationItem.annotatedConfig
          ⟨"M", [("a", ⟨Ty.int, Ty.int, Shape.singleton, ⟨none⟩⟩)]⟩
          ⟨[], [("a", MappingEntry.rename "b")], 1⟩) []).map
      (fun p => p.2.rfm_dicts.getD 0 []) = Except.ok [("b", "a")] ∧
    ([("b", "a")] : Dict String) ≠ ([] : Dict String) ∧
    (class_getitem ⟨[[]], [[("extra", (Ty.int, ⟨some (Value.intV 0)⟩))]]⟩
        ⟨true, some ⟨[], [], 0⟩, some 0, none, none⟩
        (SpecializationItem.plain
          ⟨"M", [("a", ⟨Ty.int, Ty.int, Shape.singleton, ⟨none⟩⟩)]⟩) []).map
      (fun p => (p.2.fields_dicts.getD 0 []).length) = Except.ok 2 ∧
    (2 : Nat) ≠ 1 := by
  exact ⟨rfl, by decide, rfl, by decide⟩

/-- C10 amended: specialization returns a new class value and does not
reassign the invoking class's attribute slots, but the dict objects those
attributes alias are written through the call.  (1) A plain
specialization touches no reverse-mappings dict.  (2) When the config in
effect references an empty fields dict, the fields heap is unchanged.
(3) When it references a non-empty fields dict, that dict is overwritten
in place with the complete field-definition dict of the built container —
so a plain re-specialization of a class with non-empty _config.fields
mutates its _config.  (4) An Annotated specialization with an empty field
mapping leaves the parent's reverse dict with its old value.  (5) Every
reverse-mappings dict other than the parent's own is preserved.  (6)
Every fields dict other than the one the effective config references is
preserved. -/
theorem class_getitem_frame_amended (heap : DTOHeap) (cls : FactoryClassState)
    (mc : PydanticModelClass) (config : ConfigObject) (localns : Dict Ty)
    (hp : cls.has_plugin_type = true) :
    (∀ r, cls.reverse_ref = some r →
      (class_getitem heap cls (SpecializationItem.plain mc) localns).map
        (fun p => p.2.rfm_dicts) = Except.ok heap.rfm_dicts) ∧
    (∀ c, cls.config = some c → c.fields_ref < heap.fields_dicts.length →
      (heap.fields_dicts.getD c.fields_ref []).isEmpty = true →
      (class_getitem heap cls (SpecializationItem.plain mc) localns).map
        (fun p => p.2.fields_dicts) = Except.ok heap.fields_dicts) ∧
    (∀ c, cls.config = some c → c.fields_ref < heap.fields_dicts.length →
      (heap.fields_dicts.getD c.fields_ref []).isEmpty = false →
      (class_getitem heap cls (SpecializationItem.plain mc) localns).map
        (fun p => p.2.fields_dicts.getD c.fields_ref []) =
        Except.ok (pydantic_to_data_container_class mc c.exclude c.field_mapping
          (heap.fields_dicts.getD c.fields_ref []) localns).fields_) ∧
    (∀ r, cls.reverse_ref = some r → r < heap.rfm_dicts.length →
      config.field_mapping = [] →
      (class_getitem heap cls (SpecializationItem.annotatedConfig mc config) localns).map
        (fun p => p.2.rfm_dicts) = Except.ok heap.rfm_dicts) ∧
    (∀ res, class_getitem heap cls (SpecializationItem.annotatedConfig mc config) localns =
        Except.ok res →
      ∀ i, i < heap.rfm_dicts.length → cls.reverse_ref ≠ some i →
        res.2.rfm_dicts.getD i [] = heap.rfm_dicts.getD i []) ∧
    (∀ res, class_getitem heap cls (SpecializationItem.annotatedConfig mc config) localns =
        Except.ok res →
      ∀ i, i < heap.fields_dicts.length → i ≠ config.fields_ref →
        res.2.fields_dicts.getD i [] = heap.fields_dicts.getD i []) := by
  refine ⟨?_, ?_, ?_, ?_, ?_, ?_⟩
  · intro r hr
    simp [class_getitem, hp, hr, Except.map]
  · intro c hc hlt he
    simp only [class_getitem, hp, hc]
    rw [if_neg (by simp)]
    simp only [Except.map]
    have heff : pydantic_container_fields_effect mc c.exclude c.field_mapping
        (heap.fields_dicts.getD c.fields_ref []) localns =
        heap.fields_dicts.getD c.fields_ref [] := by
      unfold pydantic_container_fields_effect
      rw [if_pos he]
    rw [heff, list_set_getD_self heap.fields_dicts c.fields_ref [] hlt]
  · intro c hc hlt he
    simp only [class_getitem, hp, hc]
    rw [if_neg (by simp)]
    simp only [Except.map]
    have heff : pydantic_container_fields_effect mc c.exclude c.field_mapping
        (heap.fields_dicts.getD c.fields_ref []) localns =
        (pydantic_to_data_container_class mc c.exclude c.field_mapping
          (heap.fields_dicts.getD c.fields_ref []) localns).fields_ := by
      unfold pydantic_container_fields_effect
      rw [if_neg (by rw [he]; exact Bool.false_ne_true)]
    rw [heff, list_getD_set_self heap.fields_dicts c.fields_ref _ [] hlt]
  · intro r hr hlt hfm
    simp only [class_getitem, hp, hr, hfm, List.foldl_nil]
    rw [if_neg (by simp)]
    simp only [Except.map]
    rw [list_set_getD_self heap.rfm_dicts r [] hlt]
  · intro res hok i hi hne
    cases hrr : cls.reverse_ref with
    | some r =>
        simp only [class_getitem, hp, hrr] at hok
        rw [if_neg (by simp)] at hok
        have hres := (Except.ok.inj hok).symm
        rw [hres]
        exact list_getD_set_ne heap.rfm_dicts r i _ [] (fun hir => hne (by rw [hrr, hir]))
    | none =>
        simp only [class_getitem, hp, hrr] at hok
        rw [if_neg (by simp)] at hok
        have hres := (Except.ok.inj hok).symm
        rw [hres]
        show ((heap.rfm_dicts ++ [[]]).set heap.rfm_dicts.length _).getD i [] = _
        rw [list_getD_set_ne _ _ _ _ _ (Nat.ne_of_lt hi)]
        exact list_getD_append_left heap.rfm_dicts [[]] i [] hi
  · intro res hok i hi hne
    cases hrr : cls.reverse_ref with
    | some r =>
        simp only [class_getitem, hp, hrr] at hok
        rw [if_neg (by simp)] at hok
        have hres := (Except.ok.inj hok).symm
        rw [hres]
        exact list_getD_set_ne heap.fields_dicts config.fields_ref i _ [] hne
    | none =>
        simp only [class_getitem, hp, hrr] at hok
        rw [if_neg (by simp)] at hok
        have hres := (Except.ok.inj hok).symm
        rw [hres]
        exact list_getD_set_ne heap.fields_dicts config.fields_ref i _ [] hne

/-- Witness for C10's amended theorem: a concrete specialized class.  A
plain re-specialization leaves the reverse-mappings heap unchanged, and
with a non-empty inherited fields dict the parent's _config.fields ends
up holding the built container's field definitions. -/
theorem class_getitem_frame_amended_witness :
    (class_getitem ⟨[[]], [[("extra", (Ty.int, ⟨none⟩))]]⟩
        ⟨true, some ⟨[], [], 0⟩, some 0, none, none⟩
        (SpecializationItem.plain
          ⟨"M", [("a", ⟨Ty.int, Ty.int, Shape.singleton, ⟨none⟩⟩)]⟩) []).map
      (fun p => p.2.rfm_dicts) = Except.ok [[]] ∧
    (class_getitem ⟨[[]], [[("extra", (Ty.int, ⟨none⟩))]]⟩
        ⟨true, some ⟨[], [], 0⟩, some 0, none, none⟩
        (SpecializationItem.plain
          ⟨"M", [("a", ⟨Ty.int, Ty.int, Shape.singleton, ⟨none⟩⟩)]⟩) []).map
      (fun p => p.2.fields_dicts.getD 0 []) =
      Except.ok (pydantic_to_data_container_class
        ⟨"M", [("a", ⟨Ty.int, Ty.int, Shape.singleton, ⟨none⟩⟩)]⟩ [] []
        [("extra", (Ty.int, ⟨none⟩))] []).fields_ :=
  ⟨(class_getitem_frame_amended ⟨[[]], [[("extra", (Ty.int, ⟨none⟩))]]⟩
      ⟨true, some ⟨[], [], 0⟩, some 0, none, none⟩
      ⟨"M", [("a", ⟨Ty.int, Ty.int, Shape.singleton, ⟨none⟩⟩)]⟩
      ⟨[], [], 0⟩ [] rfl).1 0 rfl,
    (class_getitem_frame_amended ⟨[[]], [[("extra", (Ty.int, ⟨none⟩))]]⟩
      ⟨true, some ⟨[], [], 0⟩, some 0, none, none⟩
      ⟨"M", [("a", ⟨Ty.int, Ty.int, Shape.singleton, ⟨none⟩⟩)]⟩
      ⟨[], [], 0⟩ [] rfl).2.2.1 ⟨[], [], 0⟩ rfl (by decide) rfl⟩

end Starlite
